import Mathlib

/-!
Shallow embedding of the neon-stack deterministic gameplay core:
the geometry/slice engine (`src/core/geometry.ts`), the physics module
(`src/core/physics.ts`), the scoring module (`src/core/scoring.ts`) and
the game state machine (`src/state/gameStore.ts`).

JavaScript numbers are modelled as rationals (`ℚ`); the integral
counters (score, streak, high score) as naturals.  `Math.sin` and
`Math.random`, which only feed cosmetic fields, are modelled as an
explicit environment (`Env`).  The geometry module's mutable id counter
is threaded explicitly (`ctr` arguments, `GameState.idCtr`).
-/

namespace NeonStack

/-- 3D vector of rational coordinates (source: `Vector3` in `core/types.ts`). -/
structure Vector3 where
  x : ℚ
  y : ℚ
  z : ℚ
deriving DecidableEq, Repr

/-- Horizontal axis along which blocks move (source: `Axis` in `core/types.ts`). -/
inductive Axis where
  | x
  | z
deriving DecidableEq, Repr

/-- Block ids: the fixed `'base'` id or a generated `` `block-${n}` `` id
(source: string ids produced by `generateId` in `core/geometry.ts`). -/
inductive BlockId where
  | base
  | gen (n : ℕ)
deriving DecidableEq, Repr

/-- A block in the game world (source: `Block` in `core/types.ts`). -/
structure Block where
  id : BlockId
  position : Vector3
  dimensions : Vector3
deriving DecidableEq, Repr

/-- Dynamic component access `v[axis]` used throughout the source. -/
def Vector3.get (v : Vector3) : Axis → ℚ
  | Axis.x => v.x
  | Axis.z => v.z

/-- Spread-update `{ ...v, [axis]: q }` used throughout the source. -/
def Vector3.set (v : Vector3) : Axis → ℚ → Vector3
  | Axis.x, q => { v with x := q }
  | Axis.z, q => { v with z := q }

-- Game constants (source: `GAME_CONSTANTS` in `core/types.ts`).
namespace GAME_CONSTANTS

def BLOCK_HEIGHT : ℚ := 1/2

def INITIAL_BLOCK_SIZE : ℚ := 3

def PERFECT_TOLERANCE : ℚ := 1/10

def OSCILLATION_AMPLITUDE : ℚ := 4

def OSCILLATION_SPEED : ℚ := 2

def GRAVITY : ℚ := -20

def FALLING_PIECE_LIFETIME : ℚ := 2000

def POINTS_PER_HIT : ℕ := 10

def PERFECT_STREAK_MULTIPLIER : ℕ := 2

end GAME_CONSTANTS

/-- Source: `vec3` in `core/geometry.ts`. -/
def vec3 (x y z : ℚ) : Vector3 := ⟨x, y, z⟩

/-- Source: `generateId` in `core/geometry.ts` (`` `block-${++idCounter}` ``);
the mutable module counter is threaded explicitly. -/
def generateId (ctr : ℕ) : BlockId × ℕ :=
  (BlockId.gen (ctr + 1), ctr + 1)

/-- Source: `createBlock` in `core/geometry.ts`.  Returns the new block
together with the updated id counter. -/
def createBlock (ctr : ℕ) (position dimensions : Vector3)
    (id : Option BlockId := none) : Block × ℕ :=
  match id with
  | some i => ({ id := i, position := position, dimensions := dimensions }, ctr)
  | none =>
      let g := generateId ctr
      ({ id := g.1, position := position, dimensions := dimensions }, g.2)

/-- The `{min, max, size}` record returned by `calculateAxisOverlap`. -/
structure Overlap where
  min : ℚ
  max : ℚ
  size : ℚ
deriving DecidableEq, Repr

/-- Source: `calculateAxisOverlap` in `core/geometry.ts`. -/
def calculateAxisOverlap (movingPos movingSize basePos baseSize : ℚ) :
    Option Overlap :=
  let movingMin := movingPos - movingSize / 2
  let movingMax := movingPos + movingSize / 2
  let baseMin := basePos - baseSize / 2
  let baseMax := basePos + baseSize / 2
  let overlapMin := max movingMin baseMin
  let overlapMax := min movingMax baseMax
  if overlapMin ≥ overlapMax then
    none
  else
    some { min := overlapMin, max := overlapMax, size := overlapMax - overlapMin }

/-- Source: `isPerfectHit` in `core/geometry.ts`. -/
def isPerfectHit (movingPos movingSize basePos baseSize : ℚ)
    (tolerance : ℚ := GAME_CONSTANTS.PERFECT_TOLERANCE) : Bool :=
  match calculateAxisOverlap movingPos movingSize basePos baseSize with
  | none => false
  | some overlap => decide (movingSize - overlap.size ≤ tolerance)

/-- Source: `SliceResult` in `core/types.ts`. -/
structure SliceResult where
  kept : Option Block
  fallen : Option Block
  isPerfect : Bool
deriving DecidableEq, Repr

/-- Source: `sliceBlock` in `core/geometry.ts`.  Returns the slice result
together with the updated id counter. -/
def sliceBlock (ctr : ℕ) (moving base : Block) (axis : Axis) :
    SliceResult × ℕ :=
  let movingPos := moving.position.get axis
  let movingSize := moving.dimensions.get axis
  let basePos := base.position.get axis
  let baseSize := base.dimensions.get axis
  if isPerfectHit movingPos movingSize basePos baseSize then
    let kb := createBlock ctr
      { x := if axis = Axis.x then basePos else moving.position.x
        y := moving.position.y
        z := if axis = Axis.z then basePos else moving.position.z }
      moving.dimensions
    ({ kept := some kb.1, fallen := none, isPerfect := true }, kb.2)
  else
    match calculateAxisOverlap movingPos movingSize basePos baseSize with
    | none =>
        let fb := createBlock ctr moving.position moving.dimensions
        ({ kept := none, fallen := some fb.1, isPerfect := false }, fb.2)
    | some overlap =>
        let keptCenter := (overlap.min + overlap.max) / 2
        let keptSize := overlap.size
        let movingMin := movingPos - movingSize / 2
        let movingMax := movingPos + movingSize / 2
        let fallenSize :=
          if movingMin < overlap.min then overlap.min - movingMin
          else movingMax - overlap.max
        let fallenCenter :=
          if movingMin < overlap.min then movingMin + fallenSize / 2
          else overlap.max + fallenSize / 2
        let kb := createBlock ctr
          { x := if axis = Axis.x then keptCenter else moving.position.x
            y := moving.position.y
            z := if axis = Axis.z then keptCenter else moving.position.z }
          { x := if axis = Axis.x then keptSize else moving.dimensions.x
            y := moving.dimensions.y
            z := if axis = Axis.z then keptSize else moving.dimensions.z }
        let fb := createBlock kb.2
          { x := if axis = Axis.x then fallenCenter else moving.position.x
            y := moving.position.y
            z := if axis = Axis.z then fallenCenter else moving.position.z }
          { x := if axis = Axis.x then fallenSize else moving.dimensions.x
            y := moving.dimensions.y
            z := if axis = Axis.z then fallenSize else moving.dimensions.z }
        ({ kept := some kb.1, fallen := some fb.1, isPerfect := false }, fb.2)

/-- Source: `createBaseBlock` in `core/geometry.ts`. -/
def createBaseBlock (ctr : ℕ) : Block × ℕ :=
  createBlock ctr (vec3 0 0 0)
    (vec3 GAME_CONSTANTS.INITIAL_BLOCK_SIZE GAME_CONSTANTS.BLOCK_HEIGHT
      GAME_CONSTANTS.INITIAL_BLOCK_SIZE)
    (some BlockId.base)

/-- Source: `createMovingBlock` in `core/geometry.ts`. -/
def createMovingBlock (ctr : ℕ) (lastBlock : Block) (axis : Axis) : Block × ℕ :=
  let spawnOffset := GAME_CONSTANTS.OSCILLATION_AMPLITUDE
  createBlock ctr
    { x := if axis = Axis.x then -spawnOffset else lastBlock.position.x
      y := lastBlock.position.y + GAME_CONSTANTS.BLOCK_HEIGHT
      z := if axis = Axis.z then -spawnOffset else lastBlock.position.z }
    lastBlock.dimensions

/-- Source: `calculateHitScore` in `core/scoring.ts`. -/
def calculateHitScore (perfectStreak : ℕ) (isPerfect : Bool) : ℕ :=
  let basePoints := GAME_CONSTANTS.POINTS_PER_HIT
  if !isPerfect then
    basePoints
  else
    basePoints * GAME_CONSTANTS.PERFECT_STREAK_MULTIPLIER ^ perfectStreak

/-- Source: `updatePerfectStreak` in `core/scoring.ts`. -/
def updatePerfectStreak (currentStreak : ℕ) (isPerfect : Bool) : ℕ :=
  if isPerfect then currentStreak + 1 else 0

example : calculateAxisOverlap 0 3 1 3 = some ⟨-1/2, 3/2, 2⟩ := by
  norm_num [calculateAxisOverlap, max_def, min_def]

example : calculateAxisOverlap 0 3 3 3 = none := by
  norm_num [calculateAxisOverlap, max_def, min_def]

example : calculateHitScore 2 true = 40 := by decide

/-- The environment abstracting the two host functions the core calls:
`Math.sin` (used by `oscillatePosition`) and `Math.random` (used only for
the cosmetic falling-piece velocity fields); `rand n` is the value of the
n-th `Math.random()` draw inside a single `createFallingPiece` call. -/
structure Env where
  sinq : ℚ → ℚ
  rand : ℕ → ℚ

/-- Source: `oscillatePosition` in `core/physics.ts`
(`centerOffset + Math.sin(elapsedTime * speed) * amplitude`). -/
def oscillatePosition (env : Env) (elapsedTime : ℚ)
    (amplitude : ℚ := GAME_CONSTANTS.OSCILLATION_AMPLITUDE)
    (speed : ℚ := GAME_CONSTANTS.OSCILLATION_SPEED)
    (centerOffset : ℚ := 0) : ℚ :=
  centerOffset + env.sinq (elapsedTime * speed) * amplitude

/-- Source: `updateBlockOscillation` in `core/physics.ts`. -/
def updateBlockOscillation (env : Env) (block : Block) (axis : Axis)
    (elapsedTime : ℚ) (centerOffset : ℚ := 0) : Block :=
  let oscillatedPos := oscillatePosition env elapsedTime
    GAME_CONSTANTS.OSCILLATION_AMPLITUDE GAME_CONSTANTS.OSCILLATION_SPEED
    centerOffset
  { block with position := block.position.set axis oscillatedPos }

/-- Source: `calculateFallingVelocity` in `core/physics.ts`. -/
def calculateFallingVelocity (env : Env) (fallenBlock baseBlock : Block)
    (axis : Axis) : Vector3 :=
  let direction : ℚ :=
    if fallenBlock.position.get axis > baseBlock.position.get axis then 1 else -1
  let horizontalSpeed := 2 + env.rand 0 * 2
  vec3
    (if axis = Axis.x then direction * horizontalSpeed
     else (env.rand 1 - 1/2) * (1/2))
    0
    (if axis = Axis.z then direction * horizontalSpeed
     else (env.rand 2 - 1/2) * (1/2))

/-- Source: `calculateAngularVelocity` in `core/physics.ts`. -/
def calculateAngularVelocity (env : Env) (axis : Axis) : Vector3 :=
  let rotationSpeed := 2 + env.rand 3 * 3
  vec3
    (if axis = Axis.z then rotationSpeed else (env.rand 4 - 1/2) * 2)
    ((env.rand 5 - 1/2) * 2)
    (if axis = Axis.x then rotationSpeed else (env.rand 6 - 1/2) * 2)

/-- Source: `FallingPiece` in `core/types.ts`; the source id is the string
`` `falling-${block.id}` ``, modelled by the underlying block id. -/
structure FallingPiece where
  sourceId : BlockId
  block : Block
  velocity : Vector3
  angularVelocity : Vector3
  createdAt : ℚ
deriving DecidableEq, Repr

/-- Source: `createFallingPiece` in `core/physics.ts`. -/
def createFallingPiece (env : Env) (fallenBlock baseBlock : Block)
    (axis : Axis) (currentTime : ℚ) : FallingPiece :=
  { sourceId := fallenBlock.id
    block := fallenBlock
    velocity := calculateFallingVelocity env fallenBlock baseBlock axis
    angularVelocity := calculateAngularVelocity env axis
    createdAt := currentTime }

/-- Source: `updateFallingPiece` in `core/physics.ts`. -/
def updateFallingPiece (piece : FallingPiece) (deltaTime : ℚ) : FallingPiece :=
  let newVelocity : Vector3 :=
    { x := piece.velocity.x
      y := piece.velocity.y + GAME_CONSTANTS.GRAVITY * deltaTime
      z := piece.velocity.z }
  let newPosition : Vector3 :=
    { x := piece.block.position.x + newVelocity.x * deltaTime
      y := piece.block.position.y + newVelocity.y * deltaTime
      z := piece.block.position.z + newVelocity.z * deltaTime }
  { piece with
    velocity := newVelocity
    block := { piece.block with position := newPosition } }

/-- Source: `shouldRemoveFallingPiece` in `core/physics.ts`. -/
def shouldRemoveFallingPiece (piece : FallingPiece) (currentTime : ℚ) : Bool :=
  let age := currentTime - piece.createdAt
  decide (age > GAME_CONSTANTS.FALLING_PIECE_LIFETIME) ||
    decide (piece.block.position.y < -20)

/-- Source: `GamePhase` in `core/types.ts`. -/
inductive GamePhase where
  | idle
  | playing
  | gameover
deriving DecidableEq, Repr

/-- Source: the Zustand store state in `state/gameStore.ts`; `idCtr`
models the geometry module's mutable id counter, which lives beside the
store in the source process. -/
structure GameState where
  phase : GamePhase
  blocks : List Block
  currentBlock : Option Block
  pendingNextBlock : Option Block
  movingAxis : Axis
  gameTime : ℚ
  score : ℕ
  perfectStreak : ℕ
  highScore : ℕ
  fallingPieces : List FallingPiece
  lastPerfectHit : Bool
  idCtr : ℕ
deriving DecidableEq, Repr

/-- Source: the initial state literal in `state/gameStore.ts` (lines 33-44). -/
def initialState : GameState :=
  { phase := GamePhase.idle
    blocks := []
    currentBlock := none
    pendingNextBlock := none
    movingAxis := Axis.x
    gameTime := 0
    score := 0
    perfectStreak := 0
    highScore := 0
    fallingPieces := []
    lastPerfectHit := false
    idCtr := 0 }

/-- Source: `getNextAxis` in `state/gameStore.ts`. -/
def getNextAxis : Axis → Axis
  | Axis.x => Axis.z
  | Axis.z => Axis.x

/-- Source: `getTopBlock` in `state/gameStore.ts`; the source throws on an
empty stack, modelled as `none` (actions propagate it as a failed step). -/
def getTopBlock (blocks : List Block) : Option Block :=
  blocks.getLast?

/-- Source: `startGame` in `state/gameStore.ts`.  `resetIdCounter` is the
`idCtr := 0` reset at the start. -/
def startGame (s : GameState) : GameState :=
  let b := createBaseBlock 0
  let m := createMovingBlock b.2 b.1 Axis.x
  { s with
    phase := GamePhase.playing
    blocks := [b.1]
    currentBlock := some m.1
    pendingNextBlock := none
    movingAxis := Axis.x
    gameTime := 0
    score := 0
    perfectStreak := 0
    fallingPieces := []
    lastPerfectHit := false
    idCtr := m.2 }

/-- Source: `dropBlock` in `state/gameStore.ts`.  `none` models the
exception thrown by `getTopBlock` on an empty stack; the early guard
returns the state unchanged. -/
def dropBlock (env : Env) (s : GameState) : Option GameState :=
  if s.phase ≠ GamePhase.playing then some s else
  match s.currentBlock with
  | none => some s
  | some current =>
    match getTopBlock s.blocks with
    | none => none
    | some topBlock =>
      let res := sliceBlock s.idCtr current topBlock s.movingAxis
      match res.1.kept with
      | none =>
        let newFallingPieces :=
          match res.1.fallen with
          | some f =>
              s.fallingPieces ++
                [createFallingPiece env f topBlock s.movingAxis s.gameTime]
          | none => s.fallingPieces
        some { s with
          phase := GamePhase.gameover
          currentBlock := none
          pendingNextBlock := none
          fallingPieces := newFallingPieces
          highScore := max s.score s.highScore
          idCtr := res.2 }
      | some kept =>
        let newStreak := updatePerfectStreak s.perfectStreak res.1.isPerfect
        let points := calculateHitScore s.perfectStreak res.1.isPerfect
        let newScore := s.score + points
        let newBlocks := s.blocks ++ [kept]
        let nextAxis := getNextAxis s.movingAxis
        let nb := createMovingBlock res.2 kept nextAxis
        let newFallingPieces :=
          match res.1.fallen with
          | some f =>
              s.fallingPieces ++
                [createFallingPiece env f topBlock s.movingAxis s.gameTime]
          | none => s.fallingPieces
        some { s with
          blocks := newBlocks
          currentBlock := none
          pendingNextBlock := some nb.1
          movingAxis := nextAxis
          score := newScore
          perfectStreak := newStreak
          fallingPieces := newFallingPieces
          lastPerfectHit := res.1.isPerfect
          highScore := max newScore s.highScore
          idCtr := nb.2 }

/-- Source: `tick` in `state/gameStore.ts`. -/
def tick (env : Env) (deltaMs : ℚ) (s : GameState) : Option GameState :=
  if s.phase ≠ GamePhase.playing then some s else
  let newGameTime := s.gameTime + deltaMs
  let elapsedSeconds := newGameTime / 1000
  match getTopBlock s.blocks with
  | none => none
  | some topBlock =>
    let centerOffset := topBlock.position.get s.movingAxis
    match s.pendingNextBlock with
    | some pending =>
      let spawnedBlock :=
        updateBlockOscillation env pending s.movingAxis elapsedSeconds centerOffset
      some { s with
        gameTime := newGameTime
        currentBlock := some spawnedBlock
        pendingNextBlock := none }
    | none =>
      match s.currentBlock with
      | none => some s
      | some current =>
        let updatedBlock :=
          updateBlockOscillation env current s.movingAxis elapsedSeconds centerOffset
        some { s with
          gameTime := newGameTime
          currentBlock := some updatedBlock }

/-- Source: `spawnPendingBlock` in `state/gameStore.ts`. -/
def spawnPendingBlock (env : Env) (s : GameState) : Option GameState :=
  match s.pendingNextBlock with
  | none => some s
  | some pending =>
    match getTopBlock s.blocks with
    | none => none
    | some topBlock =>
      let centerOffset := topBlock.position.get s.movingAxis
      let elapsedSeconds := s.gameTime / 1000
      let spawnedBlock :=
        updateBlockOscillation env pending s.movingAxis elapsedSeconds centerOffset
      some { s with
        currentBlock := some spawnedBlock
        pendingNextBlock := none }

/-- Source: `cleanupFallingPieces` in `state/gameStore.ts` (the source
skips the store update when nothing is removed; the resulting state is
the same). -/
def cleanupFallingPieces (s : GameState) : GameState :=
  { s with
    fallingPieces :=
      s.fallingPieces.filter (fun p => !shouldRemoveFallingPiece p s.gameTime) }

/-- Source: `reset` in `state/gameStore.ts`. -/
def reset (s : GameState) : GameState :=
  { s with
    phase := GamePhase.idle
    blocks := []
    currentBlock := none
    pendingNextBlock := none
    movingAxis := Axis.x
    gameTime := 0
    score := 0
    perfectStreak := 0
    fallingPieces := []
    lastPerfectHit := false }

/-- The store's full action surface, used to state reachability. -/
inductive Action where
  | start
  | drop
  | tickBy (deltaMs : ℚ)
  | spawnPending
  | cleanupPieces
  | doReset

/-- Apply one action; `none` is the source's thrown exception. -/
def applyAction (env : Env) : Action → GameState → Option GameState
  | Action.start, s => some (startGame s)
  | Action.drop, s => dropBlock env s
  | Action.tickBy d, s => tick env d s
  | Action.spawnPending, s => spawnPendingBlock env s
  | Action.cleanupPieces, s => some (cleanupFallingPieces s)
  | Action.doReset, s => some (reset s)

/-- States reachable from the initial store state by successful actions
(each step may observe fresh `Math.sin` / `Math.random` values). -/
inductive Reachable : GameState → Prop
  | init : Reachable initialState
  | step {s s' : GameState} (env : Env) (a : Action) :
      Reachable s → applyAction env a s = some s' → Reachable s'

/-- The slice result `dropBlock` would compute in state `s`, if any. -/
def sliceAt (s : GameState) : Option SliceResult :=
  match s.currentBlock, getTopBlock s.blocks with
  | some current, some topBlock =>
      some (sliceBlock s.idCtr current topBlock s.movingAxis).1
  | _, _ => none

/-- `true` iff `dropBlock` in state `s` would see a perfect slice. -/
def perfectSliceAt (s : GameState) : Bool :=
  match sliceAt s with
  | some r => r.isPerfect
  | none => false

/-- One `dropBlock` step whose slice result is a perfect hit. -/
def PerfectDrop (env : Env) (s s' : GameState) : Prop :=
  dropBlock env s = some s' ∧ perfectSliceAt s = true

/-- The actions other than `dropBlock` that can run between two drops. -/
inductive NAct where
  | tickBy (deltaMs : ℚ)
  | spawnPending
  | cleanupPieces

/-- Apply one neutral action. -/
def applyNAct (env : Env) : NAct → GameState → Option GameState
  | NAct.tickBy d, s => tick env d s
  | NAct.spawnPending, s => spawnPendingBlock env s
  | NAct.cleanupPieces, s => some (cleanupFallingPieces s)

/-- Apply a list of neutral actions in order. -/
def applyNeutrals (env : Env) (acts : List NAct) (s : GameState) :
    Option GameState :=
  acts.foldlM (fun st a => applyNAct env a st) s

/-! ## Helper lemmas -/

/-- A fixed environment (`Math.sin` and `Math.random` both returning 0),
used to instantiate theorems at concrete runs. -/
def env0 : Env := ⟨fun _ => 0, fun _ => 0⟩

theorem Vector3.get_mk_axis (axis : Axis) (q vx vy vz : ℚ) :
    Vector3.get
      ⟨if axis = Axis.x then q else vx, vy, if axis = Axis.z then q else vz⟩
      axis = q := by
  cases axis <;> simp [Vector3.get]

theorem Vector3.mk_axis_eq_set (axis : Axis) (v : Vector3) (q : ℚ) :
    (Vector3.mk (if axis = Axis.x then q else v.x) v.y
      (if axis = Axis.z then q else v.z)) = v.set axis q := by
  cases axis <;> simp [Vector3.set]

/-! ## Claim theorems -/

/-- Claim C5: `calculateHitScore k false` is the fixed 10 base points for
every streak `k`, and `calculateHitScore k true` is `10 * 2 ^ k`; in
particular streaks 0..4 score 10, 20, 40, 80, 160. -/
theorem claim_C5_exponential_scoring :
    (∀ k : ℕ, calculateHitScore k false = 10 ∧
      calculateHitScore k true = 10 * 2 ^ k) ∧
    calculateHitScore 0 true = 10 ∧ calculateHitScore 1 true = 20 ∧
    calculateHitScore 2 true = 40 ∧ calculateHitScore 3 true = 80 ∧
    calculateHitScore 4 true = 160 :=
  ⟨fun _ => ⟨rfl, rfl⟩, by decide, by decide, by decide, by decide, by decide⟩

/-- Claim C8: `reset` returns to the idle phase and clears all per-run
state (stack, current and pending block, axis back to X, time, score,
streak, falling pieces, last-perfect flag) while leaving the high score
unchanged. -/
theorem claim_C8_reset_clears_run_state (s : GameState) :
    (reset s).phase = GamePhase.idle ∧ (reset s).blocks = [] ∧
    (reset s).currentBlock = none ∧ (reset s).pendingNextBlock = none ∧
    (reset s).movingAxis = Axis.x ∧ (reset s).gameTime = 0 ∧
    (reset s).score = 0 ∧ (reset s).perfectStreak = 0 ∧
    (reset s).fallingPieces = [] ∧ (reset s).lastPerfectHit = false ∧
    (reset s).highScore = s.highScore :=
  ⟨rfl, rfl, rfl, rfl, rfl, rfl, rfl, rfl, rfl, rfl, rfl⟩

/-- Claim C7: `dropBlock` outside the playing phase, or with no current
moving block, is a no-op on the whole game state. -/
theorem claim_C7_dropBlock_noop (env : Env) (s : GameState)
    (h : s.phase ≠ GamePhase.playing ∨ s.currentBlock = none) :
    dropBlock env s = some s := by
  unfold dropBlock
  rcases h with h | h
  · rw [if_pos h]
  · by_cases hp : s.phase = GamePhase.playing
    · rw [if_neg (by simp [hp]), h]
    · rw [if_pos hp]

/-- Witness for C7: `dropBlock` in the initial (idle) state does nothing. -/
theorem claim_C7_witness :
    (initialState.phase ≠ GamePhase.playing ∨
      initialState.currentBlock = none) ∧
    dropBlock env0 initialState = some initialState :=
  ⟨Or.inl (by decide), claim_C7_dropBlock_noop env0 initialState (Or.inl (by decide))⟩

/-- Claim C6: `calculateAxisOverlap` returns `none` exactly when the two
centered intervals are disjoint or merely touch: for all inputs, `none`
means no point lies strictly inside both intervals; for genuine (positive
size) intervals, `none` means one interval ends at or before the other
begins; and two touching unit intervals (centers 1 apart) give `none`. -/
theorem claim_C6_overlap_none_iff :
    (∀ movingPos movingSize basePos baseSize : ℚ,
      calculateAxisOverlap movingPos movingSize basePos baseSize = none ↔
        ¬ ∃ q : ℚ,
          (movingPos - movingSize / 2 < q ∧ q < movingPos + movingSize / 2) ∧
          (basePos - baseSize / 2 < q ∧ q < basePos + baseSize / 2)) ∧
    (∀ movingPos movingSize basePos baseSize : ℚ,
      0 < movingSize → 0 < baseSize →
      (calculateAxisOverlap movingPos movingSize basePos baseSize = none ↔
        movingPos + movingSize / 2 ≤ basePos - baseSize / 2 ∨
          basePos + baseSize / 2 ≤ movingPos - movingSize / 2)) ∧
    calculateAxisOverlap 0 1 1 1 = none := by
  have key : ∀ movingPos movingSize basePos baseSize : ℚ,
      calculateAxisOverlap movingPos movingSize basePos baseSize = none ↔
        min (movingPos + movingSize / 2) (basePos + baseSize / 2) ≤
          max (movingPos - movingSize / 2) (basePos - baseSize / 2) := by
    intro mp ms bp bs
    unfold calculateAxisOverlap
    dsimp only
    split
    · exact iff_of_true rfl (ge_iff_le.mp ‹_›)
    · exact iff_of_false (by simp) (fun hle => ‹¬_ ≥ _› (ge_iff_le.mpr hle))
  refine ⟨?_, ?_, ?_⟩
  · intro mp ms bp bs
    rw [key]
    constructor
    · rintro hle ⟨q, ⟨h1, h2⟩, h3, h4⟩
      have hq1 : max (mp - ms / 2) (bp - bs / 2) < q := max_lt h1 h3
      have hq2 : q < min (mp + ms / 2) (bp + bs / 2) := lt_min h2 h4
      linarith
    · intro hno
      by_contra hlt
      push_neg at hlt
      refine hno ⟨(max (mp - ms / 2) (bp - bs / 2) +
        min (mp + ms / 2) (bp + bs / 2)) / 2, ⟨?_, ?_⟩, ?_, ?_⟩
      · have := le_max_left (mp - ms / 2) (bp - bs / 2)
        linarith
      · have := min_le_left (mp + ms / 2) (bp + bs / 2)
        linarith
      · have := le_max_right (mp - ms / 2) (bp - bs / 2)
        linarith
      · have := min_le_right (mp + ms / 2) (bp + bs / 2)
        linarith
  · intro mp ms bp bs hms hbs
    rw [key]
    constructor
    · intro hle
      rcases max_cases (mp - ms / 2) (bp - bs / 2) with ⟨hm, _⟩ | ⟨hm, _⟩ <;>
        rcases min_cases (mp + ms / 2) (bp + bs / 2) with ⟨hn, _⟩ | ⟨hn, _⟩ <;>
          rw [hm, hn] at hle
      · exact absurd hle (by linarith)
      · exact Or.inr hle
      · exact Or.inl hle
      · exact absurd hle (by linarith)
    · rintro (h | h)
      · calc min (mp + ms / 2) (bp + bs / 2) ≤ mp + ms / 2 := min_le_left _ _
          _ ≤ bp - bs / 2 := h
          _ ≤ max (mp - ms / 2) (bp - bs / 2) := le_max_right _ _
      · calc min (mp + ms / 2) (bp + bs / 2) ≤ bp + bs / 2 := min_le_right _ _
          _ ≤ mp - ms / 2 := h
          _ ≤ max (mp - ms / 2) (bp - bs / 2) := le_max_left _ _
  · rw [key]
    norm_num

/-- Witness for C6: touching unit intervals (centers 1 apart, positive
sizes) are classified as no overlap, via the theorem's positive-size
characterization. -/
theorem claim_C6_witness :
    calculateAxisOverlap 0 1 1 1 = none :=
  (claim_C6_overlap_none_iff.2.1 0 1 1 1 (by norm_num) (by norm_num)).mpr
    (Or.inl (by norm_num))

theorem calculateAxisOverlap_some_inv (mp ms bp bs : ℚ) (ov : Overlap)
    (h : calculateAxisOverlap mp ms bp bs = some ov) :
    ov.min = max (mp - ms / 2) (bp - bs / 2) ∧
    ov.max = min (mp + ms / 2) (bp + bs / 2) ∧
    ov.size = ov.max - ov.min ∧ ov.min < ov.max := by
  unfold calculateAxisOverlap at h
  dsimp only at h
  split at h
  · exact absurd h (by simp)
  · injection h with h
    subst h
    exact ⟨rfl, rfl, rfl, not_le.mp ‹¬_ ≥ _›⟩

theorem isPerfectHit_of_no_overlap (mp ms bp bs t : ℚ)
    (h : calculateAxisOverlap mp ms bp bs = none) :
    isPerfectHit mp ms bp bs t = false := by
  unfold isPerfectHit
  rw [h]

/-- Claim C3: when `calculateAxisOverlap` is `none` (complete miss),
`sliceBlock` returns no kept block, `isPerfect = false`, and a fallen
block that is a full copy of the moving block (same position and
dimensions). -/
theorem claim_C3_miss_completeness (ctr : ℕ) (moving base : Block)
    (axis : Axis)
    (ho : calculateAxisOverlap (moving.position.get axis)
      (moving.dimensions.get axis) (base.position.get axis)
      (base.dimensions.get axis) = none) :
    (sliceBlock ctr moving base axis).1.kept = none ∧
    (sliceBlock ctr moving base axis).1.isPerfect = false ∧
    ∃ f, (sliceBlock ctr moving base axis).1.fallen = some f ∧
      f.position = moving.position ∧ f.dimensions = moving.dimensions := by
  have hperf := isPerfectHit_of_no_overlap _ _ _ _
    GAME_CONSTANTS.PERFECT_TOLERANCE ho
  unfold sliceBlock
  dsimp only
  rw [hperf, ho]
  simp [createBlock, generateId]

def c3moving : Block := ⟨BlockId.gen 9, ⟨10, 1/2, 0⟩, ⟨3, 1/2, 3⟩⟩

def c3base : Block := ⟨BlockId.base, ⟨0, 0, 0⟩, ⟨3, 1/2, 3⟩⟩

/-- Witness for C3: a moving block at x = 10 over the size-3 base at the
origin misses completely and falls whole. -/
theorem claim_C3_witness :
    calculateAxisOverlap (c3moving.position.get Axis.x)
      (c3moving.dimensions.get Axis.x) (c3base.position.get Axis.x)
      (c3base.dimensions.get Axis.x) = none ∧
    (sliceBlock 0 c3moving c3base Axis.x).1.kept = none ∧
    (sliceBlock 0 c3moving c3base Axis.x).1.isPerfect = false ∧
    ∃ f, (sliceBlock 0 c3moving c3base Axis.x).1.fallen = some f ∧
      f.position = c3moving.position ∧ f.dimensions = c3moving.dimensions := by
  have ho : calculateAxisOverlap (c3moving.position.get Axis.x)
      (c3moving.dimensions.get Axis.x) (c3base.position.get Axis.x)
      (c3base.dimensions.get Axis.x) = none := by
    simp only [c3moving, c3base, Vector3.get]
    norm_num [calculateAxisOverlap, max_def, min_def]
  exact ⟨ho, claim_C3_miss_completeness 0 c3moving c3base Axis.x ho⟩

theorem equal_size_overlap (mp bp s : ℚ) (h : |mp - bp| < s) :
    calculateAxisOverlap mp s bp s =
      some ⟨max mp bp - s / 2, min mp bp + s / 2, s - |mp - bp|⟩ := by
  unfold calculateAxisOverlap
  dsimp only
  have hmax : max (mp - s / 2) (bp - s / 2) = max mp bp - s / 2 := by
    rcases le_total mp bp with hc | hc
    · rw [max_eq_right (by linarith), max_eq_right hc]
    · rw [max_eq_left (by linarith), max_eq_left hc]
  have hmin : min (mp + s / 2) (bp + s / 2) = min mp bp + s / 2 := by
    rcases le_total mp bp with hc | hc
    · rw [min_eq_left (by linarith), min_eq_left hc]
    · rw [min_eq_right (by linarith), min_eq_right hc]
  have habs : max mp bp - min mp bp = |mp - bp| := by
    rw [max_sub_min_eq_abs, abs_sub_comm]
  rw [hmax, hmin, if_neg (by intro hge; simp only [ge_iff_le] at hge; linarith)]
  have hsz : (min mp bp + s / 2) - (max mp bp - s / 2) = s - |mp - bp| := by
    linarith
  rw [hsz]

theorem isPerfectHit_equal_sizes (mp bp s : ℚ)
    (h1 : |mp - bp| ≤ GAME_CONSTANTS.PERFECT_TOLERANCE) (h2 : |mp - bp| < s) :
    isPerfectHit mp s bp s = true := by
  unfold isPerfectHit
  rw [equal_size_overlap mp bp s h2]
  simp only [decide_eq_true_eq]
  linarith

/-- Claim C2 (amended): for moving and base blocks of equal size along
the slicing axis whose centers along that axis differ by at most the
perfect tolerance (and by strictly less than that size, so that the
intervals overlap), `sliceBlock` reports a perfect hit with no fallen
block and a kept block snapped onto the base position along the axis,
all other coordinates and all dimensions taken from the moving block. -/
theorem claim_C2_amended_perfect_snap (ctr : ℕ) (moving base : Block)
    (axis : Axis)
    (hsize : moving.dimensions.get axis = base.dimensions.get axis)
    (hnear : |moving.position.get axis - base.position.get axis| ≤
      GAME_CONSTANTS.PERFECT_TOLERANCE)
    (hlt : |moving.position.get axis - base.position.get axis| <
      base.dimensions.get axis) :
    (sliceBlock ctr moving base axis).1.isPerfect = true ∧
    (sliceBlock ctr moving base axis).1.fallen = none ∧
    ∃ k, (sliceBlock ctr moving base axis).1.kept = some k ∧
      k.position = moving.position.set axis (base.position.get axis) ∧
      k.dimensions = moving.dimensions := by
  have hperf : isPerfectHit (moving.position.get axis)
      (moving.dimensions.get axis) (base.position.get axis)
      (base.dimensions.get axis) = true := by
    rw [hsize]
    exact isPerfectHit_equal_sizes _ _ _ hnear hlt
  unfold sliceBlock
  dsimp only
  rw [hperf]
  exact ⟨rfl, rfl, _, rfl, Vector3.mk_axis_eq_set axis moving.position
    (base.position.get axis), rfl⟩

def c2moving : Block := ⟨BlockId.gen 1, ⟨0, 1/2, 0⟩, ⟨3, 1/2, 3⟩⟩

def c2base : Block := ⟨BlockId.base, ⟨0, 0, 0⟩, ⟨2, 1/2, 2⟩⟩

/-- Counterexample to C2 as stated: a size-3 moving block centered
exactly over a size-2 base (center offset 0, within tolerance) is NOT a
perfect hit — `sliceBlock` reports `isPerfect = false` and a fallen
block, because perfection is decided by the trimmed amount
`movingSize - overlap.size`, not by the center distance alone. -/
theorem claim_C2_counterexample :
    |c2moving.position.get Axis.x - c2base.position.get Axis.x| ≤
      GAME_CONSTANTS.PERFECT_TOLERANCE ∧
    (sliceBlock 0 c2moving c2base Axis.x).1.isPerfect = false ∧
    (sliceBlock 0 c2moving c2base Axis.x).1.fallen ≠ none := by
  have hov : calculateAxisOverlap 0 3 0 2 = some ⟨-1, 1, 2⟩ := by
    norm_num [calculateAxisOverlap, max_def, min_def]
  have hperf : isPerfectHit 0 3 0 2 = false := by
    unfold isPerfectHit
    rw [hov]
    norm_num [GAME_CONSTANTS.PERFECT_TOLERANCE]
  refine ⟨by simp [c2moving, c2base, Vector3.get,
    GAME_CONSTANTS.PERFECT_TOLERANCE], ?_, ?_⟩ <;>
    · unfold sliceBlock
      dsimp only
      simp only [c2moving, c2base, Vector3.get]
      rw [hperf, hov]
      simp [createBlock, generateId]

def c2wmoving : Block := ⟨BlockId.gen 1, ⟨1/20, 1/2, 0⟩, ⟨3, 1/2, 3⟩⟩

def c2wbase : Block := ⟨BlockId.base, ⟨0, 0, 0⟩, ⟨3, 1/2, 3⟩⟩

/-- Witness for the amended C2: equal size-3 blocks with centers 1/20
apart produce a perfect snapped hit. -/
theorem claim_C2_witness :
    (c2wmoving.dimensions.get Axis.x = c2wbase.dimensions.get Axis.x ∧
      |c2wmoving.position.get Axis.x - c2wbase.position.get Axis.x| ≤
        GAME_CONSTANTS.PERFECT_TOLERANCE ∧
      |c2wmoving.position.get Axis.x - c2wbase.position.get Axis.x| <
        c2wbase.dimensions.get Axis.x) ∧
    ((sliceBlock 0 c2wmoving c2wbase Axis.x).1.isPerfect = true ∧
      (sliceBlock 0 c2wmoving c2wbase Axis.x).1.fallen = none ∧
      ∃ k, (sliceBlock 0 c2wmoving c2wbase Axis.x).1.kept = some k ∧
        k.position = c2wmoving.position.set Axis.x
          (c2wbase.position.get Axis.x) ∧
        k.dimensions = c2wmoving.dimensions) := by
  have h1 : c2wmoving.dimensions.get Axis.x = c2wbase.dimensions.get Axis.x := by
    simp [c2wmoving, c2wbase, Vector3.get]
  have h2 : |c2wmoving.position.get Axis.x - c2wbase.position.get Axis.x| ≤
      GAME_CONSTANTS.PERFECT_TOLERANCE := by
    simp only [c2wmoving, c2wbase, Vector3.get, GAME_CONSTANTS.PERFECT_TOLERANCE]
    rw [abs_le]
    constructor <;> norm_num
  have h3 : |c2wmoving.position.get Axis.x - c2wbase.position.get Axis.x| <
      c2wbase.dimensions.get Axis.x := by
    simp only [c2wmoving, c2wbase, Vector3.get]
    rw [abs_lt]
    constructor <;> norm_num
  exact ⟨⟨h1, h2, h3⟩,
    claim_C2_amended_perfect_snap 0 c2wmoving c2wbase Axis.x h1 h2 h3⟩

/-- Claim C1 (amended): on a partial overlap (`calculateAxisOverlap`
non-null and the hit not perfect) in which the overhang lies on one side
only — the base interval is not strictly contained in the moving
interval, i.e. the base extends at least as far as the moving block on
the negative side or on the positive side — `sliceBlock` returns kept
and fallen both non-null with
`kept.dimensions[axis] + fallen.dimensions[axis] = moving.dimensions[axis]`
exactly. -/
theorem claim_C1_amended_mass_conservation (ctr : ℕ) (moving base : Block)
    (axis : Axis) (ov : Overlap)
    (ho : calculateAxisOverlap (moving.position.get axis)
      (moving.dimensions.get axis) (base.position.get axis)
      (base.dimensions.get axis) = some ov)
    (hnp : isPerfectHit (moving.position.get axis)
      (moving.dimensions.get axis) (base.position.get axis)
      (base.dimensions.get axis) = false)
    (hside : base.position.get axis - base.dimensions.get axis / 2 ≤
        moving.position.get axis - moving.dimensions.get axis / 2 ∨
      moving.position.get axis + moving.dimensions.get axis / 2 ≤
        base.position.get axis + base.dimensions.get axis / 2) :
    ∃ k f, (sliceBlock ctr moving base axis).1.kept = some k ∧
      (sliceBlock ctr moving base axis).1.fallen = some f ∧
      k.dimensions.get axis + f.dimensions.get axis =
        moving.dimensions.get axis := by
  obtain ⟨hm1, hm2, hm3, hm4⟩ := calculateAxisOverlap_some_inv _ _ _ _ _ ho
  unfold sliceBlock
  dsimp only
  rw [hnp]
  simp only [Bool.false_eq_true, if_false]
  rw [ho]
  refine ⟨_, _, rfl, rfl, ?_⟩
  simp only [createBlock, generateId]
  rw [Vector3.get_mk_axis, Vector3.get_mk_axis, hm3]
  set mp := moving.position.get axis with hmp
  set ms := moving.dimensions.get axis with hms
  set bp := base.position.get axis with hbp
  set bs := base.dimensions.get axis with hbs
  split
  · rename_i hlt
    have hovmin : ov.min = bp - bs / 2 := by
      rcases max_cases (mp - ms / 2) (bp - bs / 2) with ⟨hm, _⟩ | ⟨hm, _⟩
      · rw [hm1, hm] at hlt
        exact absurd hlt (lt_irrefl _)
      · rw [hm1, hm]
    have hovmax : ov.max = mp + ms / 2 := by
      rcases hside with hs | hs
      · rw [hovmin] at hlt
        linarith
      · rw [hm2, min_eq_left hs]
    rw [hovmax, hovmin]
    ring
  · rename_i hge
    push_neg at hge
    have hovmin : ov.min = mp - ms / 2 :=
      le_antisymm hge (hm1 ▸ le_max_left _ _)
    rw [hovmin]
    ring

def c1moving : Block := ⟨BlockId.gen 1, ⟨0, 1/2, 0⟩, ⟨3, 1/2, 3⟩⟩

def c1base : Block := ⟨BlockId.base, ⟨0, 0, 0⟩, ⟨1, 1/2, 1⟩⟩

/-- Counterexample to C1 as stated: a size-3 moving block centered over a
size-1 base partially overlaps it (overlap non-null, hit not perfect),
yet `sliceBlock` keeps size 1 and drops a single size-1 overhang, so
`kept.dimensions.x + fallen.dimensions.x = 2 ≠ 3 = moving.dimensions.x`:
when the base is strictly inside the moving block the second overhang is
lost and mass is not conserved. -/
theorem claim_C1_counterexample :
    (calculateAxisOverlap (c1moving.position.get Axis.x)
      (c1moving.dimensions.get Axis.x) (c1base.position.get Axis.x)
      (c1base.dimensions.get Axis.x)).isSome = true ∧
    isPerfectHit (c1moving.position.get Axis.x)
      (c1moving.dimensions.get Axis.x) (c1base.position.get Axis.x)
      (c1base.dimensions.get Axis.x) = false ∧
    ¬ ∃ k f, (sliceBlock 0 c1moving c1base Axis.x).1.kept = some k ∧
      (sliceBlock 0 c1moving c1base Axis.x).1.fallen = some f ∧
      k.dimensions.get Axis.x + f.dimensions.get Axis.x =
        c1moving.dimensions.get Axis.x := by
  have hov : calculateAxisOverlap 0 3 0 1 = some ⟨-1/2, 1/2, 1⟩ := by
    norm_num [calculateAxisOverlap, max_def, min_def]
  have hperf : isPerfectHit 0 3 0 1 = false := by
    unfold isPerfectHit
    rw [hov]
    norm_num [GAME_CONSTANTS.PERFECT_TOLERANCE]
  have hslice : (sliceBlock 0 c1moving c1base Axis.x).1 =
      { kept := some ⟨BlockId.gen 1, ⟨0, 1/2, 0⟩, ⟨1, 1/2, 3⟩⟩
        fallen := some ⟨BlockId.gen 2, ⟨-1, 1/2, 0⟩, ⟨1, 1/2, 3⟩⟩
        isPerfect := false } := by
    unfold sliceBlock
    dsimp only
    simp only [c1moving, c1base, Vector3.get]
    rw [hperf, hov]
    norm_num [createBlock, generateId]
    decide
  refine ⟨by simp [c1moving, c1base, Vector3.get, hov], ?_, ?_⟩
  · simpa [c1moving, c1base, Vector3.get] using hperf
  · rintro ⟨k, f, hk, hf, hsum⟩
    rw [hslice] at hk hf
    injection hk with hk
    injection hf with hf
    subst hk
    subst hf
    simp only [c1moving, Vector3.get] at hsum
    norm_num at hsum

def c1wmoving : Block := ⟨BlockId.gen 1, ⟨1, 1/2, 0⟩, ⟨3, 1/2, 3⟩⟩

def c1wbase : Block := ⟨BlockId.base, ⟨0, 0, 0⟩, ⟨3, 1/2, 3⟩⟩

/-- Witness for the amended C1: equal size-3 blocks with centers 1 apart
slice into a kept part of size 2 and a fallen part of size 1, which sum
to the moving size 3. -/
theorem claim_C1_witness :
    (calculateAxisOverlap (c1wmoving.position.get Axis.x)
        (c1wmoving.dimensions.get Axis.x) (c1wbase.position.get Axis.x)
        (c1wbase.dimensions.get Axis.x) = some ⟨-1/2, 3/2, 2⟩ ∧
      isPerfectHit (c1wmoving.position.get Axis.x)
        (c1wmoving.dimensions.get Axis.x) (c1wbase.position.get Axis.x)
        (c1wbase.dimensions.get Axis.x) = false) ∧
    ∃ k f, (sliceBlock 0 c1wmoving c1wbase Axis.x).1.kept = some k ∧
      (sliceBlock 0 c1wmoving c1wbase Axis.x).1.fallen = some f ∧
      k.dimensions.get Axis.x + f.dimensions.get Axis.x =
        c1wmoving.dimensions.get Axis.x := by
  have hov : calculateAxisOverlap (c1wmoving.position.get Axis.x)
      (c1wmoving.dimensions.get Axis.x) (c1wbase.position.get Axis.x)
      (c1wbase.dimensions.get Axis.x) = some ⟨-1/2, 3/2, 2⟩ := by
    simp only [c1wmoving, c1wbase, Vector3.get]
    norm_num [calculateAxisOverlap, max_def, min_def]
  have hperf : isPerfectHit (c1wmoving.position.get Axis.x)
      (c1wmoving.dimensions.get Axis.x) (c1wbase.position.get Axis.x)
      (c1wbase.dimensions.get Axis.x) = false := by
    unfold isPerfectHit
    rw [hov]
    simp only [c1wmoving, Vector3.get]
    norm_num [GAME_CONSTANTS.PERFECT_TOLERANCE]
  have hside : c1wbase.position.get Axis.x -
      c1wbase.dimensions.get Axis.x / 2 ≤
      c1wmoving.position.get Axis.x -
        c1wmoving.dimensions.get Axis.x / 2 ∨
      c1wmoving.position.get Axis.x +
        c1wmoving.dimensions.get Axis.x / 2 ≤
      c1wbase.position.get Axis.x +
        c1wbase.dimensions.get Axis.x / 2 := by
    left
    simp only [c1wmoving, c1wbase, Vector3.get]
    norm_num
  exact ⟨⟨hov, hperf⟩, claim_C1_amended_mass_conservation 0 c1wmoving
    c1wbase Axis.x ⟨-1/2, 3/2, 2⟩ hov hperf hside⟩

/-- Claim C10: a miss drop (slice with `kept = null`) changes only phase
(to game over), the current and pending block slots, the falling pieces,
and the high score (to `max score highScore`); score, streak, stack,
game time, axis and the last-perfect flag are untouched. -/
theorem claim_C10_miss_frame (env : Env) (s s' : GameState)
    (current topBlock : Block)
    (hp : s.phase = GamePhase.playing)
    (hc : s.currentBlock = some current)
    (ht : getTopBlock s.blocks = some topBlock)
    (hk : (sliceBlock s.idCtr current topBlock s.movingAxis).1.kept = none)
    (hd : dropBlock env s = some s') :
    s'.phase = GamePhase.gameover ∧ s'.currentBlock = none ∧
    s'.pendingNextBlock = none ∧ s'.highScore = max s.score s.highScore ∧
    s'.score = s.score ∧ s'.perfectStreak = s.perfectStreak ∧
    s'.blocks = s.blocks ∧ s'.gameTime = s.gameTime ∧
    s'.movingAxis = s.movingAxis ∧ s'.lastPerfectHit = s.lastPerfectHit := by
  unfold dropBlock at hd
  rw [if_neg (by simp [hp]), hc, ht] at hd
  dsimp only at hd
  rw [hk] at hd
  injection hd with hd
  subst hd
  exact ⟨rfl, rfl, rfl, rfl, rfl, rfl, rfl, rfl, rfl, rfl⟩

def c10base : Block := ⟨BlockId.base, ⟨0, 0, 0⟩, ⟨3, 1/2, 3⟩⟩

def c10moving : Block := ⟨BlockId.gen 7, ⟨10, 1/2, 0⟩, ⟨3, 1/2, 3⟩⟩

def c10s : GameState :=
  ⟨GamePhase.playing, [c10base], some c10moving, none, Axis.x, 250, 5, 2, 3,
    [], true, 7⟩

def c10fallen : Block := ⟨BlockId.gen 8, ⟨10, 1/2, 0⟩, ⟨3, 1/2, 3⟩⟩

def c10piece : FallingPiece :=
  ⟨BlockId.gen 8, c10fallen, ⟨2, 0, -1/4⟩, ⟨-1, -1, 2⟩, 250⟩

def c10sAfter : GameState :=
  ⟨GamePhase.gameover, [c10base], none, none, Axis.x, 250, 5, 2, 5,
    [c10piece], true, 8⟩

theorem c10_slice_eq : sliceBlock 7 c10moving c10base Axis.x =
    (⟨none, some c10fallen, false⟩, 8) := by
  have hov : calculateAxisOverlap 10 3 0 3 = none := by
    norm_num [calculateAxisOverlap, max_def, min_def]
  have hperf := isPerfectHit_of_no_overlap 10 3 0 3
    GAME_CONSTANTS.PERFECT_TOLERANCE hov
  unfold sliceBlock
  dsimp only
  simp only [c10moving, c10base, Vector3.get]
  rw [hperf, hov]
  simp [createBlock, generateId, c10fallen]

theorem c10_drop_eq : dropBlock env0 c10s = some c10sAfter := by
  have hpiece : createFallingPiece env0 c10fallen c10base Axis.x 250 =
      c10piece := by
    simp only [createFallingPiece, calculateFallingVelocity,
      calculateAngularVelocity, env0, vec3, c10fallen, c10base, c10piece,
      Vector3.get]
    norm_num
    decide
  unfold dropBlock
  simp only [c10s]
  rw [if_neg (by simp)]
  rw [show getTopBlock [c10base] = some c10base from rfl]
  dsimp only
  rw [c10_slice_eq]
  dsimp only
  rw [hpiece]
  norm_num [c10sAfter]

/-- Witness for C10: a concrete miss (moving block at x = 10 over the
origin base) with score 5, streak 2, high score 3: the drop goes to game
over, sets high score 5, and leaves score, streak, stack, time, axis and
the last-perfect flag unchanged. -/
theorem claim_C10_witness :
    (c10s.phase = GamePhase.playing ∧ c10s.currentBlock = some c10moving ∧
      getTopBlock c10s.blocks = some c10base ∧
      (sliceBlock c10s.idCtr c10moving c10base c10s.movingAxis).1.kept = none ∧
      dropBlock env0 c10s = some c10sAfter) ∧
    (c10sAfter.phase = GamePhase.gameover ∧ c10sAfter.currentBlock = none ∧
      c10sAfter.pendingNextBlock = none ∧
      c10sAfter.highScore = max c10s.score c10s.highScore ∧
      c10sAfter.score = c10s.score ∧
      c10sAfter.perfectStreak = c10s.perfectStreak ∧
      c10sAfter.blocks = c10s.blocks ∧ c10sAfter.gameTime = c10s.gameTime ∧
      c10sAfter.movingAxis = c10s.movingAxis ∧
      c10sAfter.lastPerfectHit = c10s.lastPerfectHit) := by
  have hk : (sliceBlock c10s.idCtr c10moving c10base c10s.movingAxis).1.kept =
      none := by
    rw [show c10s.idCtr = 7 from rfl, show c10s.movingAxis = Axis.x from rfl,
      c10_slice_eq]
  exact ⟨⟨rfl, rfl, rfl, hk, c10_drop_eq⟩,
    claim_C10_miss_frame env0 c10s c10sAfter c10moving c10base rfl rfl rfl
      hk c10_drop_eq⟩

/-- The block-slot shape invariant: while playing exactly one of the
current and pending block slots is filled; in idle or game over both are
empty. -/
def BlockSlotsInv (s : GameState) : Prop :=
  (s.phase = GamePhase.playing →
    (s.currentBlock ≠ none ∧ s.pendingNextBlock = none) ∨
    (s.currentBlock = none ∧ s.pendingNextBlock ≠ none)) ∧
  ((s.phase = GamePhase.idle ∨ s.phase = GamePhase.gameover) →
    s.currentBlock = none ∧ s.pendingNextBlock = none)

theorem inv_initial : BlockSlotsInv initialState :=
  ⟨fun hph => absurd hph (by simp [initialState]), fun _ => ⟨rfl, rfl⟩⟩

theorem inv_startGame (s : GameState) : BlockSlotsInv (startGame s) :=
  ⟨fun _ => Or.inl ⟨by simp [startGame], rfl⟩,
    fun hph => absurd hph (by simp [startGame])⟩

theorem inv_reset (s : GameState) : BlockSlotsInv (reset s) :=
  ⟨fun hph => absurd hph (by simp [reset]), fun _ => ⟨rfl, rfl⟩⟩

theorem inv_cleanup (s : GameState) (h : BlockSlotsInv s) :
    BlockSlotsInv (cleanupFallingPieces s) := h

theorem inv_dropBlock (env : Env) (s s' : GameState) (h : BlockSlotsInv s)
    (hd : dropBlock env s = some s') : BlockSlotsInv s' := by
  unfold dropBlock at hd
  by_cases hp : s.phase = GamePhase.playing
  · rw [if_neg (by simp [hp])] at hd
    rcases hc : s.currentBlock with _ | current
    · rw [hc] at hd
      injection hd with hd
      subst hd
      exact h
    · rw [hc] at hd
      rcases ht : getTopBlock s.blocks with _ | top
      · rw [ht] at hd
        exact absurd hd (by simp)
      · rw [ht] at hd
        dsimp only at hd
        rcases hk : (sliceBlock s.idCtr current top s.movingAxis).1.kept
          with _ | kept
        · rw [hk] at hd
          injection hd with hd
          subst hd
          exact ⟨fun hph => absurd hph (by simp), fun _ => ⟨rfl, rfl⟩⟩
        · rw [hk] at hd
          injection hd with hd
          subst hd
          refine ⟨fun _ => Or.inr ⟨rfl, by simp⟩, fun hph => ?_⟩
          exact absurd
            (show s.phase = GamePhase.idle ∨ s.phase = GamePhase.gameover
              from hph) (by rw [hp]; simp)
  · rw [if_pos hp] at hd
    injection hd with hd
    subst hd
    exact h

theorem inv_tick (env : Env) (d : ℚ) (s s' : GameState) (h : BlockSlotsInv s)
    (hd : tick env d s = some s') : BlockSlotsInv s' := by
  unfold tick at hd
  by_cases hp : s.phase = GamePhase.playing
  · rw [if_neg (by simp [hp])] at hd
    dsimp only at hd
    rcases ht : getTopBlock s.blocks with _ | top
    · rw [ht] at hd
      exact absurd hd (by simp)
    · rw [ht] at hd
      dsimp only at hd
      rcases hpend : s.pendingNextBlock with _ | pending
      · rw [hpend] at hd
        dsimp only at hd
        rcases hc : s.currentBlock with _ | current
        · rw [hc] at hd
          injection hd with hd
          subst hd
          exact h
        · rw [hc] at hd
          injection hd with hd
          subst hd
          refine ⟨fun _ => Or.inl ⟨by simp, rfl⟩, fun hph => ?_⟩
          exact absurd
            (show s.phase = GamePhase.idle ∨ s.phase = GamePhase.gameover
              from hph) (by rw [hp]; simp)
      · rw [hpend] at hd
        injection hd with hd
        subst hd
        refine ⟨fun _ => Or.inl ⟨by simp, rfl⟩, fun hph => ?_⟩
        exact absurd
          (show s.phase = GamePhase.idle ∨ s.phase = GamePhase.gameover
            from hph) (by rw [hp]; simp)
  · rw [if_pos hp] at hd
    injection hd with hd
    subst hd
    exact h

theorem inv_spawn (env : Env) (s s' : GameState) (h : BlockSlotsInv s)
    (hd : spawnPendingBlock env s = some s') : BlockSlotsInv s' := by
  unfold spawnPendingBlock at hd
  rcases hpend : s.pendingNextBlock with _ | pending
  · rw [hpend] at hd
    injection hd with hd
    subst hd
    exact h
  · rw [hpend] at hd
    rcases ht : getTopBlock s.blocks with _ | top
    · rw [ht] at hd
      exact absurd hd (by simp)
    · rw [ht] at hd
      dsimp only at hd
      injection hd with hd
      subst hd
      refine ⟨fun _ => Or.inl ⟨by simp, rfl⟩, fun hph => ?_⟩
      have h2 := h.2
        (show s.phase = GamePhase.idle ∨ s.phase = GamePhase.gameover from hph)
      rw [hpend] at h2
      exact absurd h2.2 (by simp)

/-- Claim C9: in every state reachable from the initial state through the
store actions, the playing phase has exactly one of the current and
pending block slots filled, and the idle and game-over phases have both
empty. -/
theorem claim_C9_block_slots (s : GameState) (h : Reachable s) :
    (s.phase = GamePhase.playing →
      (s.currentBlock ≠ none ∧ s.pendingNextBlock = none) ∨
      (s.currentBlock = none ∧ s.pendingNextBlock ≠ none)) ∧
    ((s.phase = GamePhase.idle ∨ s.phase = GamePhase.gameover) →
      s.currentBlock = none ∧ s.pendingNextBlock = none) := by
  induction h with
  | init => exact inv_initial
  | step env a hr heq ih =>
      cases a with
      | start =>
          simp only [applyAction] at heq
          injection heq with heq
          subst heq
          exact inv_startGame _
      | drop => exact inv_dropBlock env _ _ ih heq
      | tickBy d => exact inv_tick env d _ _ ih heq
      | spawnPending => exact inv_spawn env _ _ ih heq
      | cleanupPieces =>
          simp only [applyAction] at heq
          injection heq with heq
          subst heq
          exact inv_cleanup _ ih
      | doReset =>
          simp only [applyAction] at heq
          injection heq with heq
          subst heq
          exact inv_reset _

/-- Witness for C9: the invariant instantiated at the initial state,
which is reachable in zero steps. -/
theorem claim_C9_witness :
    (initialState.phase = GamePhase.playing →
      (initialState.currentBlock ≠ none ∧
        initialState.pendingNextBlock = none) ∨
      (initialState.currentBlock = none ∧
        initialState.pendingNextBlock ≠ none)) ∧
    ((initialState.phase = GamePhase.idle ∨
        initialState.phase = GamePhase.gameover) →
      initialState.currentBlock = none ∧
        initialState.pendingNextBlock = none) :=
  claim_C9_block_slots initialState Reachable.init

theorem applyNAct_preserves (env : Env) (a : NAct) (s s' : GameState)
    (h : applyNAct env a s = some s') :
    s'.score = s.score ∧ s'.perfectStreak = s.perfectStreak ∧
      s'.phase = s.phase := by
  cases a with
  | tickBy d =>
      simp only [applyNAct] at h
      unfold tick at h
      by_cases hp : s.phase = GamePhase.playing
      · rw [if_neg (by simp [hp])] at h
        dsimp only at h
        rcases ht : getTopBlock s.blocks with _ | top
        · rw [ht] at h
          exact absurd h (by simp)
        · rw [ht] at h
          dsimp only at h
          rcases hpend : s.pendingNextBlock with _ | pending
          · rw [hpend] at h
            dsimp only at h
            rcases hc : s.currentBlock with _ | current
            · rw [hc] at h
              injection h with h
              subst h
              exact ⟨rfl, rfl, rfl⟩
            · rw [hc] at h
              injection h with h
              subst h
              exact ⟨rfl, rfl, rfl⟩
          · rw [hpend] at h
            injection h with h
            subst h
            exact ⟨rfl, rfl, rfl⟩
      · rw [if_pos hp] at h
        injection h with h
        subst h
        exact ⟨rfl, rfl, rfl⟩
  | spawnPending =>
      simp only [applyNAct] at h
      unfold spawnPendingBlock at h
      rcases hpend : s.pendingNextBlock with _ | pending
      · rw [hpend] at h
        injection h with h
        subst h
        exact ⟨rfl, rfl, rfl⟩
      · rw [hpend] at h
        rcases ht : getTopBlock s.blocks with _ | top
        · rw [ht] at h
          exact absurd h (by simp)
        · rw [ht] at h
          dsimp only at h
          injection h with h
          subst h
          exact ⟨rfl, rfl, rfl⟩
  | cleanupPieces =>
      simp only [applyNAct] at h
      injection h with h
      subst h
      exact ⟨rfl, rfl, rfl⟩

theorem applyNeutrals_preserves (env : Env) (acts : List NAct) :
    ∀ s s', applyNeutrals env acts s = some s' →
      s'.score = s.score ∧ s'.perfectStreak = s.perfectStreak ∧
        s'.phase = s.phase := by
  induction acts with
  | nil =>
      intro s s' h
      unfold applyNeutrals at h
      rw [List.foldlM_nil] at h
      injection h with h
      subst h
      exact ⟨rfl, rfl, rfl⟩
  | cons a l ih =>
      intro s s' h
      unfold applyNeutrals at h
      rw [List.foldlM_cons] at h
      rcases ha : applyNAct env a s with _ | s1
      · rw [ha] at h
        exact absurd h (by simp)
      · rw [ha] at h
        have h2 : List.foldlM (fun st a => applyNAct env a st) s1 l =
            some s' := h
        obtain ⟨p1, p2, p3⟩ := applyNAct_preserves env a s s1 ha
        obtain ⟨q1, q2, q3⟩ := ih s1 s' h2
        exact ⟨q1.trans p1, q2.trans p2, q3.trans p3⟩

theorem sliceBlock_perfect_kept (ctr : ℕ) (moving base : Block) (axis : Axis)
    (h : (sliceBlock ctr moving base axis).1.isPerfect = true) :
    ∃ k, (sliceBlock ctr moving base axis).1.kept = some k := by
  unfold sliceBlock at h ⊢
  dsimp only at h ⊢
  split at h
  · rw [if_pos ‹_›]
    exact ⟨_, rfl⟩
  · rw [if_neg ‹_›]
    split at h
    · dsimp only at h
      exact absurd h (by simp)
    · dsimp only at h
      exact absurd h (by simp)

theorem dropBlock_hit (env : Env) (s s' : GameState)
    (current topBlock k : Block)
    (hp : s.phase = GamePhase.playing)
    (hc : s.currentBlock = some current)
    (ht : getTopBlock s.blocks = some topBlock)
    (hk : (sliceBlock s.idCtr current topBlock s.movingAxis).1.kept = some k)
    (hd : dropBlock env s = some s') :
    s'.score = s.score + calculateHitScore s.perfectStreak
      (sliceBlock s.idCtr current topBlock s.movingAxis).1.isPerfect ∧
    s'.perfectStreak = updatePerfectStreak s.perfectStreak
      (sliceBlock s.idCtr current topBlock s.movingAxis).1.isPerfect ∧
    s'.phase = GamePhase.playing := by
  unfold dropBlock at hd
  rw [if_neg (by simp [hp]), hc, ht] at hd
  dsimp only at hd
  rw [hk] at hd
  injection hd with hd
  subst hd
  exact ⟨rfl, rfl, hp⟩

theorem perfectDrop_step (env : Env) (s s' : GameState)
    (hp : s.phase = GamePhase.playing) (h : PerfectDrop env s s') :
    s'.score = s.score + 10 * 2 ^ s.perfectStreak ∧
    s'.perfectStreak = s.perfectStreak + 1 ∧
    s'.phase = GamePhase.playing := by
  obtain ⟨hd, hps⟩ := h
  unfold perfectSliceAt at hps
  rcases hr : sliceAt s with _ | r
  · rw [hr] at hps
    exact absurd hps (by simp)
  · rw [hr] at hps
    dsimp only at hps
    unfold sliceAt at hr
    rcases hc : s.currentBlock with _ | current
    · rw [hc] at hr
      exact absurd hr (by simp)
    · rw [hc] at hr
      rcases ht : getTopBlock s.blocks with _ | top
      · rw [ht] at hr
        exact absurd hr (by simp)
      · rw [ht] at hr
        dsimp only at hr
        injection hr with hr
        subst hr
        obtain ⟨k, hk⟩ := sliceBlock_perfect_kept _ _ _ _ hps
        obtain ⟨h1, h2, h3⟩ :=
          dropBlock_hit env s s' current top k hp hc ht hk hd
        rw [hps] at h1 h2
        exact ⟨h1, h2, h3⟩

/-- Claim C4: starting from `startGame` (score 0, streak 0), three
drops whose slice results are all perfect — with any interleaved tick /
spawn / cleanup steps — yield cumulative scores 10, 30, 70 and streaks
1, 2, 3, because each drop scores with the pre-update streak and only
then increments it. -/
theorem claim_C4_full_round (env : Env) (s : GameState)
    (ns0 ns1 ns2 : List NAct) (u0 u1 v1 u2 v2 u3 : GameState)
    (h0 : applyNeutrals env ns0 (startGame s) = some u0)
    (hd0 : PerfectDrop env u0 u1)
    (h1 : applyNeutrals env ns1 u1 = some v1)
    (hd1 : PerfectDrop env v1 u2)
    (h2 : applyNeutrals env ns2 u2 = some v2)
    (hd2 : PerfectDrop env v2 u3) :
    u1.score = 10 ∧ u1.perfectStreak = 1 ∧
    u2.score = 30 ∧ u2.perfectStreak = 2 ∧
    u3.score = 70 ∧ u3.perfectStreak = 3 := by
  obtain ⟨p0s, p0k, p0p⟩ := applyNeutrals_preserves env ns0 _ _ h0
  have hu0s : u0.score = 0 := by rw [p0s]; rfl
  have hu0k : u0.perfectStreak = 0 := by rw [p0k]; rfl
  have hu0p : u0.phase = GamePhase.playing := by rw [p0p]; rfl
  obtain ⟨q1s, q1k, q1p⟩ := perfectDrop_step env u0 u1 hu0p hd0
  have hu1s : u1.score = 10 := by rw [q1s, hu0s, hu0k]; decide
  have hu1k : u1.perfectStreak = 1 := by rw [q1k, hu0k]
  obtain ⟨p1s, p1k, p1p⟩ := applyNeutrals_preserves env ns1 _ _ h1
  have hv1p : v1.phase = GamePhase.playing := by rw [p1p]; exact q1p
  obtain ⟨q2s, q2k, q2p⟩ := perfectDrop_step env v1 u2 hv1p hd1
  have hu2s : u2.score = 30 := by rw [q2s, p1s, hu1s, p1k, hu1k]; decide
  have hu2k : u2.perfectStreak = 2 := by rw [q2k, p1k, hu1k]
  obtain ⟨p2s, p2k, p2p⟩ := applyNeutrals_preserves env ns2 _ _ h2
  have hv2p : v2.phase = GamePhase.playing := by rw [p2p]; exact q2p
  obtain ⟨q3s, q3k, q3p⟩ := perfectDrop_step env v2 u3 hv2p hd2
  have hu3s : u3.score = 70 := by rw [q3s, p2s, hu2s, p2k, hu2k]; decide
  have hu3k : u3.perfectStreak = 3 := by rw [q3k, p2k, hu2k]
  exact ⟨hu1s, hu1k, hu2s, hu2k, hu3s, hu3k⟩

def c4base : Block := ⟨BlockId.base, ⟨0, 0, 0⟩, ⟨3, 1/2, 3⟩⟩

def c4m1 : Block := ⟨BlockId.gen 1, ⟨-4, 1/2, 0⟩, ⟨3, 1/2, 3⟩⟩

def c4m1t : Block := ⟨BlockId.gen 1, ⟨0, 1/2, 0⟩, ⟨3, 1/2, 3⟩⟩

def c4k2 : Block := ⟨BlockId.gen 2, ⟨0, 1/2, 0⟩, ⟨3, 1/2, 3⟩⟩

def c4m3 : Block := ⟨BlockId.gen 3, ⟨0, 1, -4⟩, ⟨3, 1/2, 3⟩⟩

def c4m3t : Block := ⟨BlockId.gen 3, ⟨0, 1, 0⟩, ⟨3, 1/2, 3⟩⟩

def c4k4 : Block := ⟨BlockId.gen 4, ⟨0, 1, 0⟩, ⟨3, 1/2, 3⟩⟩

def c4m5 : Block := ⟨BlockId.gen 5, ⟨-4, 3/2, 0⟩, ⟨3, 1/2, 3⟩⟩

def c4m5t : Block := ⟨BlockId.gen 5, ⟨0, 3/2, 0⟩, ⟨3, 1/2, 3⟩⟩

def c4k6 : Block := ⟨BlockId.gen 6, ⟨0, 3/2, 0⟩, ⟨3, 1/2, 3⟩⟩

def c4m7 : Block := ⟨BlockId.gen 7, ⟨0, 2, -4⟩, ⟨3, 1/2, 3⟩⟩

def c4g0 : GameState :=
  ⟨GamePhase.playing, [c4base], some c4m1, none, Axis.x, 0, 0, 0, 0, [],
    false, 1⟩

def c4u0 : GameState :=
  ⟨GamePhase.playing, [c4base], some c4m1t, none, Axis.x, 1000, 0, 0, 0, [],
    false, 1⟩

def c4u1 : GameState :=
  ⟨GamePhase.playing, [c4base, c4k2], none, some c4m3, Axis.z, 1000, 10, 1,
    10, [], true, 3⟩

def c4v1 : GameState :=
  ⟨GamePhase.playing, [c4base, c4k2], some c4m3t, none, Axis.z, 2000, 10, 1,
    10, [], true, 3⟩

def c4u2 : GameState :=
  ⟨GamePhase.playing, [c4base, c4k2, c4k4], none, some c4m5, Axis.x, 2000,
    30, 2, 30, [], true, 5⟩

def c4v2 : GameState :=
  ⟨GamePhase.playing, [c4base, c4k2, c4k4], some c4m5t, none, Axis.x, 3000,
    30, 2, 30, [], true, 5⟩

def c4u3 : GameState :=
  ⟨GamePhase.playing, [c4base, c4k2, c4k4, c4k6], none, some c4m7, Axis.z,
    3000, 70, 3, 70, [], true, 7⟩

theorem c4_start : startGame initialState = c4g0 := by
  simp [startGame, createBaseBlock, createMovingBlock, createBlock,
    generateId, vec3, initialState, c4g0, c4base, c4m1,
    GAME_CONSTANTS.INITIAL_BLOCK_SIZE, GAME_CONSTANTS.BLOCK_HEIGHT,
    GAME_CONSTANTS.OSCILLATION_AMPLITUDE]

theorem c4_hperf : isPerfectHit 0 3 0 3 = true := by
  have hov : calculateAxisOverlap 0 3 0 3 = some ⟨-3/2, 3/2, 3⟩ := by
    norm_num [calculateAxisOverlap, max_def, min_def]
  unfold isPerfectHit
  rw [hov]
  norm_num [GAME_CONSTANTS.PERFECT_TOLERANCE]

theorem c4_slice1 : sliceBlock 1 c4m1t c4base Axis.x =
    ({ kept := some c4k2, fallen := none, isPerfect := true }, 2) := by
  unfold sliceBlock
  dsimp only
  simp only [c4m1t, c4base, Vector3.get]
  rw [c4_hperf]
  simp [createBlock, generateId, c4k2]

theorem c4_slice2 : sliceBlock 3 c4m3t c4k2 Axis.z =
    ({ kept := some c4k4, fallen := none, isPerfect := true }, 4) := by
  unfold sliceBlock
  dsimp only
  simp only [c4m3t, c4k2, Vector3.get]
  rw [c4_hperf]
  simp [createBlock, generateId, c4k4]

theorem c4_slice3 : sliceBlock 5 c4m5t c4k4 Axis.x =
    ({ kept := some c4k6, fallen := none, isPerfect := true }, 6) := by
  unfold sliceBlock
  dsimp only
  simp only [c4m5t, c4k4, Vector3.get]
  rw [c4_hperf]
  simp [createBlock, generateId, c4k6]

theorem c4_tick0 : tick env0 1000 c4g0 = some c4u0 := by
  unfold tick
  simp only [c4g0]
  rw [if_neg (by simp)]
  rw [show getTopBlock [c4base] = some c4base from rfl]
  dsimp only
  simp [updateBlockOscillation, oscillatePosition, env0, Vector3.set,
    Vector3.get, c4m1, c4m1t, c4u0, c4base,
    GAME_CONSTANTS.OSCILLATION_AMPLITUDE, GAME_CONSTANTS.OSCILLATION_SPEED]

theorem c4_tick1 : tick env0 1000 c4u1 = some c4v1 := by
  unfold tick
  simp only [c4u1]
  rw [if_neg (by simp)]
  rw [show getTopBlock [c4base, c4k2] = some c4k2 from rfl]
  dsimp only
  simp [updateBlockOscillation, oscillatePosition, env0, Vector3.set,
    Vector3.get, c4m3, c4m3t, c4v1, c4k2,
    GAME_CONSTANTS.OSCILLATION_AMPLITUDE, GAME_CONSTANTS.OSCILLATION_SPEED]
  norm_num

theorem c4_tick2 : tick env0 1000 c4u2 = some c4v2 := by
  unfold tick
  simp only [c4u2]
  rw [if_neg (by simp)]
  rw [show getTopBlock [c4base, c4k2, c4k4] = some c4k4 from rfl]
  dsimp only
  simp [updateBlockOscillation, oscillatePosition, env0, Vector3.set,
    Vector3.get, c4m5, c4m5t, c4v2, c4k4,
    GAME_CONSTANTS.OSCILLATION_AMPLITUDE, GAME_CONSTANTS.OSCILLATION_SPEED]
  norm_num

theorem c4_drop1 : dropBlock env0 c4u0 = some c4u1 := by
  unfold dropBlock
  simp only [c4u0]
  rw [if_neg (by simp)]
  rw [show getTopBlock [c4base] = some c4base from rfl]
  dsimp only
  rw [c4_slice1]
  dsimp only
  simp [c4u1, createMovingBlock, createBlock, generateId, getNextAxis,
    updatePerfectStreak, calculateHitScore, c4k2, c4m3,
    GAME_CONSTANTS.POINTS_PER_HIT, GAME_CONSTANTS.PERFECT_STREAK_MULTIPLIER,
    GAME_CONSTANTS.BLOCK_HEIGHT, GAME_CONSTANTS.OSCILLATION_AMPLITUDE]
  norm_num

theorem c4_drop2 : dropBlock env0 c4v1 = some c4u2 := by
  unfold dropBlock
  simp only [c4v1]
  rw [if_neg (by simp)]
  rw [show getTopBlock [c4base, c4k2] = some c4k2 from rfl]
  dsimp only
  rw [c4_slice2]
  dsimp only
  simp [c4u2, createMovingBlock, createBlock, generateId, getNextAxis,
    updatePerfectStreak, calculateHitScore, c4k4, c4m5,
    GAME_CONSTANTS.POINTS_PER_HIT, GAME_CONSTANTS.PERFECT_STREAK_MULTIPLIER,
    GAME_CONSTANTS.BLOCK_HEIGHT, GAME_CONSTANTS.OSCILLATION_AMPLITUDE]
  norm_num

theorem c4_drop3 : dropBlock env0 c4v2 = some c4u3 := by
  unfold dropBlock
  simp only [c4v2]
  rw [if_neg (by simp)]
  rw [show getTopBlock [c4base, c4k2, c4k4] = some c4k4 from rfl]
  dsimp only
  rw [c4_slice3]
  dsimp only
  simp [c4u3, createMovingBlock, createBlock, generateId, getNextAxis,
    updatePerfectStreak, calculateHitScore, c4k6, c4m7,
    GAME_CONSTANTS.POINTS_PER_HIT, GAME_CONSTANTS.PERFECT_STREAK_MULTIPLIER,
    GAME_CONSTANTS.BLOCK_HEIGHT, GAME_CONSTANTS.OSCILLATION_AMPLITUDE]
  norm_num

theorem c4_pd1 : PerfectDrop env0 c4u0 c4u1 := by
  refine ⟨c4_drop1, ?_⟩
  unfold perfectSliceAt sliceAt
  simp only [c4u0]
  rw [show getTopBlock [c4base] = some c4base from rfl]
  dsimp only
  rw [c4_slice1]

theorem c4_pd2 : PerfectDrop env0 c4v1 c4u2 := by
  refine ⟨c4_drop2, ?_⟩
  unfold perfectSliceAt sliceAt
  simp only [c4v1]
  rw [show getTopBlock [c4base, c4k2] = some c4k2 from rfl]
  dsimp only
  rw [c4_slice2]

theorem c4_pd3 : PerfectDrop env0 c4v2 c4u3 := by
  refine ⟨c4_drop3, ?_⟩
  unfold perfectSliceAt sliceAt
  simp only [c4v2]
  rw [show getTopBlock [c4base, c4k2, c4k4] = some c4k4 from rfl]
  dsimp only
  rw [c4_slice3]

/-- Witness for C4: a concrete run (sine and random oracles fixed at 0)
with one tick before each drop: three perfect drops from `startGame`
score 10, 30, 70 with streaks 1, 2, 3. -/
theorem claim_C4_witness :
    (applyNeutrals env0 [NAct.tickBy 1000] (startGame initialState) =
        some c4u0 ∧
      PerfectDrop env0 c4u0 c4u1 ∧
      applyNeutrals env0 [NAct.tickBy 1000] c4u1 = some c4v1 ∧
      PerfectDrop env0 c4v1 c4u2 ∧
      applyNeutrals env0 [NAct.tickBy 1000] c4u2 = some c4v2 ∧
      PerfectDrop env0 c4v2 c4u3) ∧
    (c4u1.score = 10 ∧ c4u1.perfectStreak = 1 ∧
      c4u2.score = 30 ∧ c4u2.perfectStreak = 2 ∧
      c4u3.score = 70 ∧ c4u3.perfectStreak = 3) := by
  have hn0 : applyNeutrals env0 [NAct.tickBy 1000] (startGame initialState) =
      some c4u0 := by
    rw [show applyNeutrals env0 [NAct.tickBy 1000] (startGame initialState) =
      tick env0 1000 (startGame initialState) >>= pure from rfl]
    rw [c4_start, c4_tick0]
    rfl
  have hn1 : applyNeutrals env0 [NAct.tickBy 1000] c4u1 = some c4v1 := by
    rw [show applyNeutrals env0 [NAct.tickBy 1000] c4u1 =
      tick env0 1000 c4u1 >>= pure from rfl]
    rw [c4_tick1]
    rfl
  have hn2 : applyNeutrals env0 [NAct.tickBy 1000] c4u2 = some c4v2 := by
    rw [show applyNeutrals env0 [NAct.tickBy 1000] c4u2 =
      tick env0 1000 c4u2 >>= pure from rfl]
    rw [c4_tick2]
    rfl
  exact ⟨⟨hn0, c4_pd1, hn1, c4_pd2, hn2, c4_pd3⟩,
    claim_C4_full_round env0 initialState [NAct.tickBy 1000]
      [NAct.tickBy 1000] [NAct.tickBy 1000] c4u0 c4u1 c4v1 c4u2 c4v2 c4u3
      hn0 c4_pd1 hn1 c4_pd2 hn2 c4_pd3⟩

end NeonStack
